import Mathlib

/-!
Shallow embedding of the jailer tool (a Go program that quarantines processes
in control groups).  Definitions mirror the Go source: `main.go` (Jail record,
JailerState, jailProcess, unjailProcess, unjailProcessSelective, cleanup),
`cgroups.go` (path layout and the move/restore primitives), `process.go`
(descendant discovery and the reconciliation sweep).

Modelling conventions:
* pids are `Nat`; pid-string parsing (`strconv.Atoi`) is factored out, the
  operations receive the already-parsed pid.
* The filesystem and the process table are an oracle `Env`:
  `alive` models `processExists` (a stat of /proc/pid), `cgroupOf` models a
  readable `/proc/pid/cgroup`, `table` is the list of (pid, ppid) rows that
  `/proc/:pid:/stat` presents (`none` models an unreadable /proc directory;
  a process whose stat vanished mid-scan is simply an absent row, exactly as
  the Go loop `continue`s over it), `fsOk path` tells whether
  `os.WriteFile path` succeeds and `mkdirOk dir` whether `os.MkdirAll dir`
  succeeds.
* Every cgroup operation additionally returns the list of attempted
  `cgroup.procs` writes `(path, pid)`, in order, so that theorems can speak
  about which processes were moved where.  `fmt.Printf` logging is dropped;
  `fmt.Errorf` messages are abstracted into the closed error type `JailerErr`.
-/

/-- Jail represents an active quarantine (struct `Jail` in main.go).
`Timestamp` models `time.Time` as a `Nat`; it is only reported, never read. -/
structure Jail where
  PID : Nat
  OriginalCgroup : String
  JailTypes : List String
  Timestamp : Nat
  Children : List Nat
deriving Repr, DecidableEq

/-- HasJailType checks if the jail has a specific type (linear scan with `==`). -/
def Jail.HasJailType (j : Jail) (jailType : String) : Bool :=
  j.JailTypes.contains jailType

/-- AddJailType adds a jail type if not already present (Go appends it). -/
def Jail.AddJailType (j : Jail) (jailType : String) : Jail :=
  if j.HasJailType jailType then j
  else { j with JailTypes := j.JailTypes ++ [jailType] }

/-- RemoveJailType removes the first occurrence of a jail type if present
(the Go loop splices the slice at the first match and breaks). -/
def Jail.RemoveJailType (j : Jail) (jailType : String) : Jail :=
  { j with JailTypes := j.JailTypes.erase jailType }

/-- GetJailTypesString returns a comma-separated string of jail types. -/
def Jail.GetJailTypesString (j : Jail) : String :=
  if j.JailTypes.isEmpty then "none"
  else String.intercalate "," j.JailTypes

/-- Constant `JailCpuCgroup` from cgroups.go. -/
def JailCpuCgroup : String := "jail-cpu"

/-- Constant `JailNetworkCgroup` from cgroups.go. -/
def JailNetworkCgroup : String := "jail-network"

/-- Constant `JailNetworkCpuCgroup` from cgroups.go. -/
def JailNetworkCpuCgroup : String := "jail-network-cpu"

/-- JailerState contains the global application state (struct `JailerState`).
The registry `ActiveJails` (a Go `map[int]*Jail`) is modelled as an
association list with unique keys; `FirewallTool` plays no role in the
claims and is omitted. -/
structure JailerState where
  ActiveJails : List (Nat × Jail)
  NetworkCgroupPath : String
  CpuCgroupPath : String
  NetworkCpuCgroupPath : String
  CgroupVersion : Nat
deriving Repr, DecidableEq

/-- Closed error taxonomy abstracting the `fmt.Errorf` messages of the tool. -/
inductive JailerErr where
  | unsupportedJailType
  | alreadyJailed
  | notJailed
  | notJailedWithType
  | processMissing
  | cgroupAccess
  | cgroupReadFailed
  | procUnreadable
  | mkdirFailed (dir : String)
  | writeFailed (path : String)
deriving Repr, DecidableEq

/-- Oracle for the process table and the cgroup filesystem. -/
structure Env where
  alive : Nat → Bool
  cgroupOf : Nat → Option String
  table : Option (List (Nat × Nat))
  fsOk : String → Bool
  mkdirOk : String → Bool
  now : Nat

/-- Trace of attempted `cgroup.procs` writes, in program order. -/
abbrev WriteTrace := List (String × Nat)

/-- Join of two path components, as `filepath.Join` behaves on the inputs the
tool produces (an empty right component disappears). -/
def joinPath (a b : String) : String :=
  if b = "" then a else a ++ "/" ++ b

/-- Removal of one leading slash, as `strings.TrimPrefix(s, "/")`. -/
def dropLeadingSlash (s : String) : String :=
  if s.startsWith "/" then s.drop 1 else s

/-- One `os.WriteFile` of a pid into a procs-control file; the trace records
the attempt whether or not it succeeded. -/
def writeProcs (env : Env) (path : String) (pid : Nat) :
    Except JailerErr Unit × WriteTrace :=
  ((if env.fsOk path then .ok () else .error (.writeFailed path)), [(path, pid)])

/-- Sequential pid writes into several procs-control files, stopping at the
first failure (the Go loops `return err` inside the loop). -/
def writeProcsAll (env : Env) (paths : List String) (pid : Nat) :
    Except JailerErr Unit × WriteTrace :=
  match paths with
  | [] => (.ok (), [])
  | p :: ps =>
    if env.fsOk p then
      let r := writeProcsAll env ps pid
      (r.1, (p, pid) :: r.2)
    else (.error (.writeFailed p), [(p, pid)])

/-- moveProcessToCgroupV2 moves a process to the network jail cgroup (v2). -/
def moveProcessToCgroupV2 (state : JailerState) (env : Env) (pid : Nat) :
    Except JailerErr Unit × WriteTrace :=
  writeProcs env (joinPath state.NetworkCgroupPath "cgroup.procs") pid

/-- moveProcessToCgroupV1 moves a process to the network jail cgroup (v1):
for the network jail only the net_cls subsystem is written, and the target is
the literal directory `jail` under it. -/
def moveProcessToCgroupV1 (env : Env) (pid : Nat) :
    Except JailerErr Unit × WriteTrace :=
  writeProcsAll env
    (["net_cls"].map (fun subsys =>
      joinPath (joinPath (joinPath "/sys/fs/cgroup" subsys) "jail") "cgroup.procs"))
    pid

/-- moveProcessToCgroup dispatches on the detected cgroup version. -/
def moveProcessToCgroup (state : JailerState) (env : Env) (pid : Nat) :
    Except JailerErr Unit × WriteTrace :=
  if state.CgroupVersion = 2 then moveProcessToCgroupV2 state env pid
  else moveProcessToCgroupV1 env pid

/-- moveProcessToCpuCgroupV2 moves a process to the CPU jail cgroup (v2). -/
def moveProcessToCpuCgroupV2 (state : JailerState) (env : Env) (pid : Nat) :
    Except JailerErr Unit × WriteTrace :=
  writeProcs env (joinPath state.CpuCgroupPath "cgroup.procs") pid

/-- moveProcessToCpuCgroupV1 moves a process to the CPU jail cgroup (v1);
it first re-creates the directory with `os.MkdirAll`. -/
def moveProcessToCpuCgroupV1 (state : JailerState) (env : Env) (pid : Nat) :
    Except JailerErr Unit × WriteTrace :=
  if env.mkdirOk state.CpuCgroupPath then
    writeProcs env (joinPath state.CpuCgroupPath "cgroup.procs") pid
  else (.error (.mkdirFailed state.CpuCgroupPath), [])

/-- moveProcessToCpuCgroup dispatches on the detected cgroup version. -/
def moveProcessToCpuCgroup (state : JailerState) (env : Env) (pid : Nat) :
    Except JailerErr Unit × WriteTrace :=
  if state.CgroupVersion = 2 then moveProcessToCpuCgroupV2 state env pid
  else moveProcessToCpuCgroupV1 state env pid

/-- Subsystem list used by v1 restoration and the v1 directory setup. -/
def cgroupV1Subsystems : List String := ["memory", "pids", "net_cls", "cpu"]

/-- restoreProcessCgroupV2 restores a process to its original cgroup (v2). -/
def restoreProcessCgroupV2 (env : Env) (pid : Nat) (originalCgroup : String) :
    Except JailerErr Unit × WriteTrace :=
  writeProcs env
    (joinPath (joinPath "/sys/fs/cgroup" (dropLeadingSlash originalCgroup)) "cgroup.procs")
    pid

/-- restoreProcessCgroupV1 restores a process to its original cgroup in every
v1 subsystem, stopping at the first failed write. -/
def restoreProcessCgroupV1 (env : Env) (pid : Nat) (originalCgroup : String) :
    Except JailerErr Unit × WriteTrace :=
  writeProcsAll env
    (cgroupV1Subsystems.map (fun subsys =>
      joinPath (joinPath (joinPath "/sys/fs/cgroup" subsys)
        (dropLeadingSlash originalCgroup)) "cgroup.procs"))
    pid

/-- restoreProcessCgroup dispatches on the detected cgroup version. -/
def restoreProcessCgroup (state : JailerState) (env : Env) (pid : Nat)
    (originalCgroup : String) : Except JailerErr Unit × WriteTrace :=
  if state.CgroupVersion = 2 then restoreProcessCgroupV2 env pid originalCgroup
  else restoreProcessCgroupV1 env pid originalCgroup

/-- moveProcessToCombinedCgroup moves a process to the combined jail: it
creates the net_cls combined directory, then writes the pid into
`NetworkCpuCgroupPath` and into the net_cls combined directory — with no
branch on the cgroup version.  The `combinedJailType` argument is only
logged by the Go code. -/
def moveProcessToCombinedCgroup (state : JailerState) (env : Env) (pid : Nat)
    (_combinedJailType : String) : Except JailerErr Unit × WriteTrace :=
  let combinedCgroupPath := state.NetworkCpuCgroupPath
  let netClsDir := joinPath "/sys/fs/cgroup/net_cls" JailNetworkCpuCgroup
  if env.mkdirOk netClsDir then
    let r1 := writeProcs env (joinPath combinedCgroupPath "cgroup.procs") pid
    match r1.1 with
    | .error e => (.error e, r1.2)
    | .ok _ =>
      let r2 := writeProcs env (joinPath netClsDir "cgroup.procs") pid
      (r2.1, r1.2 ++ r2.2)
  else (.error (.mkdirFailed netClsDir), [])

/-- Path assignment performed by `initializeCgroup` for the detected version
(the detected base path is `/sys/fs/cgroup` in both cases). -/
def setupCgroupPaths (version : Nat) (state : JailerState) : JailerState :=
  if version = 2 then
    { state with
      CgroupVersion := 2
      NetworkCgroupPath := joinPath "/sys/fs/cgroup" JailNetworkCgroup
      CpuCgroupPath := joinPath "/sys/fs/cgroup" JailCpuCgroup
      NetworkCpuCgroupPath := joinPath "/sys/fs/cgroup" JailNetworkCpuCgroup }
  else
    { state with
      CgroupVersion := version
      NetworkCgroupPath := joinPath (joinPath "/sys/fs/cgroup" "memory") JailNetworkCgroup
      CpuCgroupPath := joinPath (joinPath "/sys/fs/cgroup" "cpu") JailCpuCgroup
      NetworkCpuCgroupPath := joinPath (joinPath "/sys/fs/cgroup" "cpu") JailNetworkCpuCgroup }

/-- Directories created by the v1 branch of cgroup setup
(`initializeCgroupV1`): one `jail-network` directory per subsystem, the CPU
jail directory and the combined directory. -/
def cgroupV1CreatedDirs : List String :=
  (cgroupV1Subsystems.map (fun subsys =>
    joinPath (joinPath "/sys/fs/cgroup" subsys) JailNetworkCgroup))
  ++ [joinPath "/sys/fs/cgroup/cpu" JailCpuCgroup,
      joinPath "/sys/fs/cgroup/cpu" JailNetworkCpuCgroup]

/-- processExists checks if a process still exists (a stat of /proc/pid). -/
def processExists (env : Env) (pid : Nat) : Bool :=
  env.alive pid

/-- validateProcessAccess checks that the process exists and that its
/proc cgroup file is accessible. -/
def validateProcessAccess (env : Env) (pid : Nat) : Except JailerErr Unit :=
  if !processExists env pid then .error .processMissing
  else if (env.cgroupOf pid).isNone then .error .cgroupAccess
  else .ok ()

/-- getProcessCgroup returns the current cgroup path of a process, read from
/proc/pid/cgroup. -/
def getProcessCgroup (env : Env) (pid : Nat) : Except JailerErr String :=
  match env.cgroupOf pid with
  | some path => .ok path
  | none => .error .cgroupReadFailed

/-- getProcessChildren returns the direct children of a process: the pids of
the table rows whose ppid field matches.  Rows for processes whose stat file
vanished are simply absent, exactly as the Go loop continues over them. -/
def getProcessChildren (table : List (Nat × Nat)) (pid : Nat) : List Nat :=
  (table.filter (fun entry => entry.2 == pid)).map Prod.fst

/-- Set of pids occurring in the process table; every child pid the traversal
can ever see is drawn from it. -/
def pidUniverse (table : List (Nat × Nat)) : Finset Nat :=
  (table.map Prod.fst).toFinset

/-- Inner loop of the descendant walk: for each child in order, append it to
the descendants list and recurse through `step` (the Go `for` loop inside
`findDescendants`). -/
def descendantsLoop (step : Nat → Finset Nat × List Nat → Finset Nat × List Nat) :
    List Nat → Finset Nat × List Nat → Finset Nat × List Nat
  | [], st => st
  | childPid :: rest, st =>
    descendantsLoop step rest (step childPid (st.1, st.2 ++ [childPid]))

/-- Recursive body of `getAllDescendants` (`findDescendants` in process.go):
a pid already in the visited set is never re-expanded; otherwise it is marked
visited and its children are walked.  The Go recursion carries no fuel; here
`fuel` bounds the recursion depth, and `findDescendantsAux_stable` below
proves the computation reaches its fixpoint once `fuel` exceeds the number of
distinct pids — which is why the Go recursion terminates on every table,
cyclic ones included. -/
def findDescendantsAux (table : List (Nat × Nat)) (fuel : Nat) :
    Nat → Finset Nat × List Nat → Finset Nat × List Nat :=
  Nat.rec (motive := fun _ => Nat → Finset Nat × List Nat → Finset Nat × List Nat)
    (fun _ st => st)
    (fun _ ih parentPid st =>
      if parentPid ∈ st.1 then st
      else descendantsLoop ih (getProcessChildren table parentPid)
        (insert parentPid st.1, st.2))
    fuel

/-- Fuel sufficient for the walk to reach its fixpoint (proved below). -/
def descendantsFuel (table : List (Nat × Nat)) (pid : Nat) : Nat :=
  (insert pid (pidUniverse table)).card + 1

/-- getAllDescendants returns all descendants of a process; it fails exactly
when the /proc directory itself is unreadable, since that is the only error
`getProcessChildren` can surface and errors of the inner recursive calls are
swallowed by the Go `continue`. -/
def getAllDescendants (env : Env) (pid : Nat) : Except JailerErr (List Nat) :=
  match env.table with
  | none => .error .procUnreadable
  | some table => .ok (findDescendantsAux table (descendantsFuel table pid) pid (∅, [])).2

/-- Lookup in the registry association list (Go map read). -/
def lookupJail (jails : List (Nat × Jail)) (pid : Nat) : Option Jail :=
  match jails with
  | [] => none
  | entry :: rest => if entry.1 = pid then some entry.2 else lookupJail rest pid

/-- In-place update of the record stored under a pid (Go mutates the `*Jail`
the map points to). -/
def updateJail (jails : List (Nat × Jail)) (pid : Nat) (j : Jail) :
    List (Nat × Jail) :=
  jails.map (fun entry => if entry.1 = pid then (pid, j) else entry)

/-- Deletion of a registry key (Go `delete`). -/
def removeJail (jails : List (Nat × Jail)) (pid : Nat) : List (Nat × Jail) :=
  jails.filter (fun entry => entry.1 != pid)

/-- Result of one registry operation: the post-state, the outcome surfaced to
the caller, and the attempted procs-control writes. -/
abbrev OpResult := JailerState × Except JailerErr Unit × WriteTrace

/-- Root/descendant move selected by the jail type inside `jailProcess`
(the inline `if jailType == "cpu"` branches). -/
def moveForJailType (state : JailerState) (env : Env) (jailType : String)
    (pid : Nat) : Except JailerErr Unit × WriteTrace :=
  if jailType = "cpu" then moveProcessToCpuCgroup state env pid
  else moveProcessToCgroup state env pid

/-- jailProcess puts a process in quarantine (main.go).  If a record already
exists with this type it rejects; if it exists without the type, the type is
appended to the record in place and only the root pid is moved to the
combined cgroup (an error of that move is returned to the caller); otherwise
the process is validated, its original cgroup captured, descendants
enumerated, the root moved (failure aborts), each descendant moved
best-effort, and a fresh record is created whose children are the
descendants whose move succeeded. -/
def jailProcess (env : Env) (state : JailerState) (jailType : String)
    (pid : Nat) : OpResult :=
  if jailType ≠ "network" ∧ jailType ≠ "cpu" then
    (state, .error .unsupportedJailType, [])
  else
    match lookupJail state.ActiveJails pid with
    | some jail =>
      if jail.HasJailType jailType then (state, .error .alreadyJailed, [])
      else
        let jail' := jail.AddJailType jailType
        let state' := { state with ActiveJails := updateJail state.ActiveJails pid jail' }
        let combinedJailType := jail'.GetJailTypesString
        let r := moveProcessToCombinedCgroup state' env pid combinedJailType
        match r.1 with
        | .ok _ => (state', .ok (), r.2)
        | .error e => (state', .error e, r.2)
    | none =>
      match validateProcessAccess env pid with
      | .error e => (state, .error e, [])
      | .ok _ =>
        match getProcessCgroup env pid with
        | .error e => (state, .error e, [])
        | .ok originalCgroup =>
          match getAllDescendants env pid with
          | .error e => (state, .error e, [])
          | .ok descendants =>
            let rootMove := moveForJailType state env jailType pid
            match rootMove.1 with
            | .error e => (state, .error e, rootMove.2)
            | .ok _ =>
              let descMoves := descendants.map (fun d =>
                (d, moveForJailType state env jailType d))
              let successfulDescendants :=
                (descMoves.filter (fun dm => dm.2.1.isOk)).map Prod.fst
              let trace := rootMove.2 ++ (descMoves.map (fun dm => dm.2.2)).flatten
              let jail : Jail :=
                { PID := pid, OriginalCgroup := originalCgroup,
                  JailTypes := [jailType], Timestamp := env.now,
                  Children := successfulDescendants }
              ({ state with ActiveJails := state.ActiveJails ++ [(pid, jail)] },
                .ok (), trace)

/-- unjailProcess removes a process from quarantine entirely: restore the
root if it still exists, restore each still-existing child, all to the
record's `OriginalCgroup`, every failure only warned about — then delete the
record unconditionally and report success. -/
def unjailProcess (env : Env) (state : JailerState) (pid : Nat) : OpResult :=
  match lookupJail state.ActiveJails pid with
  | none => (state, .error .notJailed, [])
  | some jail =>
    let rootTrace :=
      if processExists env pid then
        (restoreProcessCgroup state env pid jail.OriginalCgroup).2
      else []
    let childTrace :=
      (jail.Children.map (fun childPid =>
        if processExists env childPid then
          (restoreProcessCgroup state env childPid jail.OriginalCgroup).2
        else [])).flatten
    ({ state with ActiveJails := removeJail state.ActiveJails pid },
      .ok (), rootTrace ++ childTrace)

/-- unjailProcessSelective removes one jail type: it requires a record with
that type; when the type is the only one it delegates to full `unjailProcess`;
otherwise it removes the type in place and moves the root and every
still-existing child to the cgroup of the remaining configuration, every move
failure only warned about. -/
def unjailProcessSelective (env : Env) (state : JailerState) (jailType : String)
    (pid : Nat) : OpResult :=
  match lookupJail state.ActiveJails pid with
  | none => (state, .error .notJailed, [])
  | some jail =>
    if !jail.HasJailType jailType then (state, .error .notJailedWithType, [])
    else if jail.JailTypes.length = 1 then unjailProcess env state pid
    else
      let jail' := jail.RemoveJailType jailType
      let state' := { state with ActiveJails := updateJail state.ActiveJails pid jail' }
      if jail'.JailTypes.length = 1 then
        let remainingType := jail'.JailTypes.headD ""
        if remainingType = "cpu" then
          let rootTrace := (moveProcessToCpuCgroup state' env pid).2
          let childTrace :=
            (jail'.Children.map (fun childPid =>
              if processExists env childPid then
                (moveProcessToCpuCgroup state' env childPid).2
              else [])).flatten
          (state', .ok (), rootTrace ++ childTrace)
        else if remainingType = "network" then
          let rootTrace := (moveProcessToCgroup state' env pid).2
          let childTrace :=
            (jail'.Children.map (fun childPid =>
              if processExists env childPid then
                (moveProcessToCgroup state' env childPid).2
              else [])).flatten
          (state', .ok (), rootTrace ++ childTrace)
        else (state', .ok (), [])
      else
        let remainingJailTypes := jail'.GetJailTypesString
        let rootTrace := (moveProcessToCombinedCgroup state' env pid remainingJailTypes).2
        let childTrace :=
          (jail'.Children.map (fun childPid =>
            if processExists env childPid then
              (moveProcessToCombinedCgroup state' env childPid remainingJailTypes).2
            else [])).flatten
        (state', .ok (), rootTrace ++ childTrace)

/-- Children pruning performed by the sweep for a surviving record: the dead
children are counted and, when any died, the children list is replaced by the
alive ones (when none died the record is left untouched — which is the same
list). -/
def pruneChildren (alive : Nat → Bool) (j : Jail) : Jail :=
  if (j.Children.filter alive).length < j.Children.length then
    { j with Children := j.Children.filter alive }
  else j

/-- cleanupDeadProcesses removes records whose root died and prunes dead
children from the surviving records (process.go).  The Go code first marks
dead roots while pruning the survivors in place, then deletes the marked
keys; the net effect on the map is filter-then-prune. -/
def cleanupDeadProcesses (alive : Nat → Bool) (jails : List (Nat × Jail)) :
    List (Nat × Jail) :=
  (jails.filter (fun entry => alive entry.1)).map
    (fun entry => (entry.1, pruneChildren alive entry.2))

/-- One registry-mutating call on a `Jail` record, for stating invariants
over arbitrary call sequences. -/
inductive JailOp where
  | add (jailType : String)
  | remove (jailType : String)
deriving Repr, DecidableEq

/-- Application of one `JailOp`. -/
def applyJailOp (j : Jail) : JailOp → Jail
  | .add t => j.AddJailType t
  | .remove t => j.RemoveJailType t

/-- Application of a sequence of `JailOp`s, oldest first. -/
def applyJailOps (j : Jail) (ops : List JailOp) : Jail :=
  ops.foldl applyJailOp j

/-! Helper lemmas about the record methods and the registry. -/

/-- Membership form of `HasJailType`. -/
lemma hasJailType_iff_mem (j : Jail) (t : String) :
    j.HasJailType t = true ↔ t ∈ j.JailTypes := by
  simp [Jail.HasJailType]

/-- AddJailType leaves the record unchanged when the type is present. -/
lemma addJailType_of_has (j : Jail) (t : String) (h : j.HasJailType t = true) :
    j.AddJailType t = j := by
  simp [Jail.AddJailType, h]

/-- AddJailType appends the type when it is absent. -/
lemma addJailType_of_not_has (j : Jail) (t : String) (h : j.HasJailType t = false) :
    (j.AddJailType t).JailTypes = j.JailTypes ++ [t] := by
  simp [Jail.AddJailType, h]

/-- AddJailType never touches the children list. -/
lemma addJailType_children (j : Jail) (t : String) :
    (j.AddJailType t).Children = j.Children := by
  unfold Jail.AddJailType; split <;> rfl

/-- AddJailType never touches the captured original cgroup. -/
lemma addJailType_originalCgroup (j : Jail) (t : String) :
    (j.AddJailType t).OriginalCgroup = j.OriginalCgroup := by
  unfold Jail.AddJailType; split <;> rfl

/-- Unfolding of `lookupJail` on a cons cell. -/
lemma lookupJail_cons (e : Nat × Jail) (rest : List (Nat × Jail)) (pid : Nat) :
    lookupJail (e :: rest) pid =
      if e.1 = pid then some e.2 else lookupJail rest pid := rfl

/-- Unfolding of `updateJail` on a cons cell. -/
lemma updateJail_cons (e : Nat × Jail) (rest : List (Nat × Jail)) (pid : Nat)
    (j : Jail) :
    updateJail (e :: rest) pid j =
      (if e.1 = pid then (pid, j) else e) :: updateJail rest pid j := rfl

/-- Looking a pid up after an in-place update yields the new record. -/
lemma lookupJail_updateJail (jails : List (Nat × Jail)) (pid : Nat) (j j₀ : Jail)
    (h : lookupJail jails pid = some j₀) :
    lookupJail (updateJail jails pid j) pid = some j := by
  induction jails with
  | nil => simp [lookupJail] at h
  | cons e rest ih =>
    rw [lookupJail_cons] at h
    rw [updateJail_cons]
    by_cases he : e.1 = pid
    · rw [if_pos he, lookupJail_cons]
      simp
    · rw [if_neg he] at h
      rw [if_neg he, lookupJail_cons, if_neg he]
      exact ih h

/-- Looking a pid up after appending a record for it at the end of a registry
that did not contain it yields that record. -/
lemma lookupJail_append_single (jails : List (Nat × Jail)) (pid : Nat) (j : Jail)
    (h : lookupJail jails pid = none) :
    lookupJail (jails ++ [(pid, j)]) pid = some j := by
  induction jails with
  | nil => simp [lookupJail]
  | cons e rest ih =>
    rw [lookupJail_cons] at h
    rw [List.cons_append, lookupJail_cons]
    by_cases he : e.1 = pid
    · rw [if_pos he] at h
      exact absurd h (by simp)
    · rw [if_neg he] at h
      rw [if_neg he]
      exact ih h

/-- C10 helper: one `JailOp` preserves duplicate-freeness of the type list. -/
lemma applyJailOp_nodup (j : Jail) (op : JailOp) (h : j.JailTypes.Nodup) :
    (applyJailOp j op).JailTypes.Nodup := by
  cases op with
  | add t =>
    by_cases ht : j.HasJailType t = true
    · simpa [applyJailOp, Jail.AddJailType, ht] using h
    · have hmem : t ∉ j.JailTypes := by
        rw [← hasJailType_iff_mem]; simp [ht]
      simp [applyJailOp, Jail.AddJailType, ht, List.nodup_append, h, hmem]
  | remove t =>
    exact List.Nodup.sublist (List.erase_sublist _ _) h

/-! Concrete fixtures used by witnesses and counterexamples. -/

/-- Fully permissive oracle: every process alive, every write succeeds. -/
def envAllOk : Env :=
  { alive := fun _ => true, cgroupOf := fun _ => some "/orig",
    table := some [], fsOk := fun _ => true, mkdirOk := fun _ => true, now := 0 }

/-- Oracle in which exactly the combined net_cls procs write fails. -/
def envNetClsWriteFails : Env :=
  { envAllOk with
    fsOk := fun p => p != "/sys/fs/cgroup/net_cls/jail-network-cpu/cgroup.procs" }

/-- Baseline state before path setup. -/
def emptyJailerState : JailerState :=
  { ActiveJails := [], NetworkCgroupPath := "", CpuCgroupPath := "",
    NetworkCpuCgroupPath := "", CgroupVersion := 0 }

/-- Example record: network jail of pid 1 with one known child, pid 2. -/
def exampleNetJail : Jail :=
  { PID := 1, OriginalCgroup := "/orig", JailTypes := ["network"],
    Timestamp := 0, Children := [2] }

/-- Example record holding both restriction types. -/
def exampleNetCpuJail : Jail :=
  { exampleNetJail with JailTypes := ["network", "cpu"] }

/-- Unified-model (v2) state holding the network record for pid 1. -/
def exampleStateV2 : JailerState :=
  setupCgroupPaths 2 { emptyJailerState with ActiveJails := [(1, exampleNetJail)] }

/-- Per-subsystem-model (v1) state holding the two-type record for pid 1. -/
def exampleStateV1 : JailerState :=
  setupCgroupPaths 1 { emptyJailerState with ActiveJails := [(1, exampleNetCpuJail)] }

/-! Claim theorems. -/

/-- C6: for every process whose record already contains the requested type
`t ∈ {network, cpu}`, `jail(p, t)` fails with AlreadyJailed and returns the
registry — hence the record's restrictionSet, children and originalLocation —
completely unchanged, with no cgroup write attempted. -/
theorem jailProcess_alreadyJailed_rejects_unchanged
    (env : Env) (state : JailerState) (jailType : String) (pid : Nat) (jail : Jail)
    (ht : jailType = "network" ∨ jailType = "cpu")
    (h : lookupJail state.ActiveJails pid = some jail)
    (hhas : jail.HasJailType jailType = true) :
    jailProcess env state jailType pid = (state, .error .alreadyJailed, []) := by
  have hcond : ¬(jailType ≠ "network" ∧ jailType ≠ "cpu") := by
    rcases ht with h1 | h1 <;> simp [h1]
  unfold jailProcess
  rw [if_neg hcond, h]
  simp [hhas]

/-- Witness for C6 at a concrete input. -/
theorem jailProcess_alreadyJailed_rejects_unchanged_witness :
    jailProcess envAllOk exampleStateV2 "network" 1 =
      (exampleStateV2, .error .alreadyJailed, []) :=
  jailProcess_alreadyJailed_rejects_unchanged envAllOk exampleStateV2 "network" 1
    exampleNetJail (Or.inl rfl) (by decide) (by decide)

/-- C7: when the record's restrictionSet is exactly the singleton of the
requested type, selective unjail is the very same operation as full unjail:
same restoration writes, same registry deletion, same outcome. -/
theorem unjailProcessSelective_singleton_is_full_unjail
    (env : Env) (state : JailerState) (jailType : String) (pid : Nat) (jail : Jail)
    (h : lookupJail state.ActiveJails pid = some jail)
    (htypes : jail.JailTypes = [jailType]) :
    unjailProcessSelective env state jailType pid = unjailProcess env state pid := by
  unfold unjailProcessSelective
  rw [h]
  simp [Jail.HasJailType, htypes]

/-- Witness for C7 at a concrete input. -/
theorem unjailProcessSelective_singleton_is_full_unjail_witness :
    unjailProcessSelective envAllOk exampleStateV2 "network" 1 =
      unjailProcess envAllOk exampleStateV2 1 :=
  unjailProcessSelective_singleton_is_full_unjail envAllOk exampleStateV2 "network" 1
    exampleNetJail (by decide) (by decide)

/-- C10: starting from a duplicate-free JailTypes list, every sequence of
AddJailType / RemoveJailType calls keeps the list duplicate-free, and
AddJailType is a no-op on an already-present type — so length tests on the
list behave as set-cardinality tests. -/
theorem jailTypes_stay_duplicate_free :
    (∀ (j : Jail) (ops : List JailOp),
      j.JailTypes.Nodup → (applyJailOps j ops).JailTypes.Nodup) ∧
    (∀ (j : Jail) (t : String), j.HasJailType t = true → j.AddJailType t = j) := by
  constructor
  · intro j ops hnd
    induction ops generalizing j with
    | nil => exact hnd
    | cons op rest ih => exact ih (applyJailOp j op) (applyJailOp_nodup j op hnd)
  · intro j t h
    exact addJailType_of_has j t h

/-- Witness for C10 at a concrete input. -/
theorem jailTypes_stay_duplicate_free_witness :
    (applyJailOps exampleNetJail
      [JailOp.add "cpu", JailOp.add "cpu", JailOp.remove "network"]).JailTypes.Nodup ∧
    exampleNetJail.AddJailType "network" = exampleNetJail :=
  ⟨jailTypes_stay_duplicate_free.1 exampleNetJail
      [JailOp.add "cpu", JailOp.add "cpu", JailOp.remove "network"] (by decide),
   jailTypes_stay_duplicate_free.2 exampleNetJail "network" (by decide)⟩

/-- C4: under the unified model (v2) the claim says the combined move is one
single write; the code, however, never branches on the version and writes the
pid into two paths — the unified combined path and the hard-coded v1
net_cls path — so two writes are performed even on v2. -/
theorem combinedMove_under_v2_writes_two_hierarchies :
    (setupCgroupPaths 2 emptyJailerState).CgroupVersion = 2 ∧
    ((moveProcessToCombinedCgroup (setupCgroupPaths 2 emptyJailerState)
        envAllOk 7 "network,cpu").2.map Prod.fst =
      ["/sys/fs/cgroup/jail-network-cpu/cgroup.procs",
       "/sys/fs/cgroup/net_cls/jail-network-cpu/cgroup.procs"]) ∧
    (moveProcessToCombinedCgroup (setupCgroupPaths 2 emptyJailerState)
        envAllOk 7 "network,cpu").2.length = 2 :=
  ⟨rfl, rfl, rfl⟩

/-- C5: selective unjail of Cpu from a {Network, Cpu} record does reduce the
restrictionSet to {Network}, but under the per-subsystem model (v1) the
network move writes the pid into `/sys/fs/cgroup/net_cls/jail/cgroup.procs`,
a path that differs from the state's NetworkCgroupPath and that the
v1 setup never created (it created the `jail-network` directories). -/
theorem v1_selective_unjail_moves_to_uncreated_network_path :
    exampleStateV1.CgroupVersion = 1 ∧
    (lookupJail (unjailProcessSelective envAllOk exampleStateV1 "cpu" 1).1.ActiveJails 1).map
        Jail.JailTypes = some ["network"] ∧
    ((unjailProcessSelective envAllOk exampleStateV1 "cpu" 1).2.2).map Prod.fst =
      ["/sys/fs/cgroup/net_cls/jail/cgroup.procs",
       "/sys/fs/cgroup/net_cls/jail/cgroup.procs"] ∧
    "/sys/fs/cgroup/net_cls/jail/cgroup.procs" ≠
      joinPath exampleStateV1.NetworkCgroupPath "cgroup.procs" ∧
    "/sys/fs/cgroup/net_cls/jail" ∉ cgroupV1CreatedDirs :=
  ⟨rfl, rfl, rfl, by decide, by decide⟩

/-! Reconciliation sweep lemmas (C9). -/

/-- Unfolding of the sweep on a cons cell. -/
lemma cleanupDeadProcesses_cons (alive : Nat → Bool) (e : Nat × Jail)
    (rest : List (Nat × Jail)) :
    cleanupDeadProcesses alive (e :: rest) =
      if alive e.1 then
        (e.1, pruneChildren alive e.2) :: cleanupDeadProcesses alive rest
      else cleanupDeadProcesses alive rest := by
  unfold cleanupDeadProcesses
  by_cases h : alive e.1 <;> simp [List.filter_cons, h]

/-- The children surviving a prune are exactly the alive ones. -/
lemma pruneChildren_children_eq (alive : Nat → Bool) (j : Jail) :
    (pruneChildren alive j).Children = j.Children.filter alive := by
  unfold pruneChildren
  split
  · rfl
  · rename_i hlt
    have hle := List.length_filter_le alive j.Children
    have hlen : (j.Children.filter alive).length = j.Children.length := by omega
    exact ((List.filter_eq_self.mpr (List.filter_length_eq_length.mp hlen))).symm

/-- Pruning never touches the jail types. -/
lemma pruneChildren_jailTypes (alive : Nat → Bool) (j : Jail) :
    (pruneChildren alive j).JailTypes = j.JailTypes := by
  unfold pruneChildren; split <;> rfl

/-- Pruning never touches the captured original cgroup. -/
lemma pruneChildren_originalCgroup (alive : Nat → Bool) (j : Jail) :
    (pruneChildren alive j).OriginalCgroup = j.OriginalCgroup := by
  unfold pruneChildren; split <;> rfl

/-- Pruning is the identity on a record whose children are all alive. -/
lemma pruneChildren_eq_self (alive : Nat → Bool) (j : Jail)
    (h : j.Children.filter alive = j.Children) :
    pruneChildren alive j = j := by
  simp [pruneChildren, h]

/-- Pruning twice equals pruning once. -/
lemma pruneChildren_idem (alive : Nat → Bool) (j : Jail) :
    pruneChildren alive (pruneChildren alive j) = pruneChildren alive j := by
  apply pruneChildren_eq_self
  rw [pruneChildren_children_eq]
  exact List.filter_eq_self.mpr (fun a ha => (List.mem_filter.mp ha).2)

/-- Looking up an alive pid through the sweep yields the pruned record. -/
lemma lookupJail_cleanup (alive : Nat → Bool) (jails : List (Nat × Jail))
    (pid : Nat) (hal : alive pid = true) :
    lookupJail (cleanupDeadProcesses alive jails) pid =
      (lookupJail jails pid).map (pruneChildren alive) := by
  induction jails with
  | nil => rfl
  | cons e rest ih =>
    rw [cleanupDeadProcesses_cons, lookupJail_cons]
    by_cases he : e.1 = pid
    · have ha : alive e.1 = true := by rw [he]; exact hal
      rw [if_pos ha, if_pos he, lookupJail_cons, if_pos he]
      simp
    · rw [if_neg he]
      by_cases ha : alive e.1 = true
      · rw [if_pos ha, lookupJail_cons, if_neg he]
        exact ih
      · rw [if_neg ha]
        exact ih

/-- C9: the reconciliation sweep is idempotent — a second run on the result
of a first run with unchanged liveness is the identity, removing no roots and
pruning no children — and for every surviving (alive) root the swept record
is the prune of the original, whose restrictionSet and originalLocation are
untouched. -/
theorem reconciliation_idempotent_and_preserves_records
    (alive : Nat → Bool) (jails : List (Nat × Jail)) :
    cleanupDeadProcesses alive (cleanupDeadProcesses alive jails) =
      cleanupDeadProcesses alive jails ∧
    (∀ (pid : Nat) (j : Jail), alive pid = true →
      lookupJail jails pid = some j →
      lookupJail (cleanupDeadProcesses alive jails) pid =
        some (pruneChildren alive j) ∧
      (pruneChildren alive j).JailTypes = j.JailTypes ∧
      (pruneChildren alive j).OriginalCgroup = j.OriginalCgroup) := by
  constructor
  · induction jails with
    | nil => rfl
    | cons e rest ih =>
      rw [cleanupDeadProcesses_cons]
      by_cases ha : alive e.1 = true
      · rw [if_pos ha, cleanupDeadProcesses_cons]
        simp only [if_pos ha, pruneChildren_idem, ih]
      · rw [if_neg ha]
        exact ih
  · intro pid j hal h
    refine ⟨?_, pruneChildren_jailTypes alive j, pruneChildren_originalCgroup alive j⟩
    rw [lookupJail_cleanup alive jails pid hal, h]
    rfl

/-- Witness for C9 at a concrete input: pid 4 is dead, child 2 of pid 1 is
dead; the sweep removes pid 4, prunes child 2, and a second sweep is the
identity. -/
theorem reconciliation_idempotent_and_preserves_records_witness :
    cleanupDeadProcesses (fun n => n == 1 || n == 3)
        (cleanupDeadProcesses (fun n => n == 1 || n == 3)
          [(1, { exampleNetJail with Children := [2, 3] }), (4, exampleNetCpuJail)]) =
      cleanupDeadProcesses (fun n => n == 1 || n == 3)
        [(1, { exampleNetJail with Children := [2, 3] }), (4, exampleNetCpuJail)] ∧
    lookupJail (cleanupDeadProcesses (fun n => n == 1 || n == 3)
        [(1, { exampleNetJail with Children := [2, 3] }), (4, exampleNetCpuJail)]) 1 =
      some (pruneChildren (fun n => n == 1 || n == 3)
        { exampleNetJail with Children := [2, 3] }) :=
  ⟨(reconciliation_idempotent_and_preserves_records (fun n => n == 1 || n == 3)
      [(1, { exampleNetJail with Children := [2, 3] }), (4, exampleNetCpuJail)]).1,
   ((reconciliation_idempotent_and_preserves_records (fun n => n == 1 || n == 3)
      [(1, { exampleNetJail with Children := [2, 3] }), (4, exampleNetCpuJail)]).2 1
      { exampleNetJail with Children := [2, 3] } rfl (by decide)).1⟩

/-! Restoration lemmas (C2). -/

/-- Restoration target paths determined by the topology and the captured
original location: one path for the unified model, one per subsystem for the
per-subsystem model. -/
def restorePaths (state : JailerState) (originalCgroup : String) : List String :=
  if state.CgroupVersion = 2 then
    [joinPath (joinPath "/sys/fs/cgroup" (dropLeadingSlash originalCgroup)) "cgroup.procs"]
  else
    cgroupV1Subsystems.map (fun subsys =>
      joinPath (joinPath (joinPath "/sys/fs/cgroup" subsys)
        (dropLeadingSlash originalCgroup)) "cgroup.procs")

/-- Every write attempted by `writeProcsAll` targets one of the given paths
and carries the given pid. -/
lemma writeProcsAll_trace_mem (env : Env) (paths : List String) (pid : Nat) :
    ∀ w ∈ (writeProcsAll env paths pid).2, w.1 ∈ paths ∧ w.2 = pid := by
  induction paths with
  | nil => simp [writeProcsAll]
  | cons p ps ih =>
    intro w hw
    unfold writeProcsAll at hw
    by_cases h : env.fsOk p
    · rw [if_pos h] at hw
      simp only [List.mem_cons] at hw
      rcases hw with rfl | hw
      · simp
      · exact ⟨List.mem_cons_of_mem _ (ih w hw).1, (ih w hw).2⟩
    · rw [if_neg h] at hw
      simp only [List.mem_singleton] at hw
      subst hw
      simp

/-- `writeProcsAll` on a nonempty path list always attempts at least the
first write. -/
lemma writeProcsAll_trace_ne_nil (env : Env) (p : String) (ps : List String)
    (pid : Nat) : (writeProcsAll env (p :: ps) pid).2 ≠ [] := by
  unfold writeProcsAll
  by_cases h : env.fsOk p <;> simp [h]

/-- Every write attempted by a restore targets a restore path of the captured
original location and carries the restored pid. -/
lemma restore_trace_mem (state : JailerState) (env : Env) (q : Nat)
    (orig : String) :
    ∀ w ∈ (restoreProcessCgroup state env q orig).2,
      w.1 ∈ restorePaths state orig ∧ w.2 = q := by
  unfold restoreProcessCgroup restorePaths
  by_cases h2 : state.CgroupVersion = 2
  · rw [if_pos h2, if_pos h2]
    unfold restoreProcessCgroupV2 writeProcs
    simp
  · rw [if_neg h2, if_neg h2]
    unfold restoreProcessCgroupV1
    exact writeProcsAll_trace_mem env _ q

/-- A restore always attempts at least one write for its pid. -/
lemma restore_trace_has_entry (state : JailerState) (env : Env) (q : Nat)
    (orig : String) :
    ∃ w ∈ (restoreProcessCgroup state env q orig).2, w.2 = q := by
  have hne : (restoreProcessCgroup state env q orig).2 ≠ [] := by
    unfold restoreProcessCgroup
    by_cases h2 : state.CgroupVersion = 2
    · rw [if_pos h2]
      unfold restoreProcessCgroupV2 writeProcs
      simp
    · rw [if_neg h2]
      unfold restoreProcessCgroupV1
      exact writeProcsAll_trace_ne_nil env _ _ q
  obtain ⟨w, hw⟩ := List.exists_mem_of_ne_nil _ hne
  exact ⟨w, hw, (restore_trace_mem state env q orig w hw).2⟩

/-- C2: full unjail on any jailed record deletes the record from the registry
and reports success unconditionally — whatever the filesystem oracle does —
after attempting, for the root when still alive and for every alive child, a
restore whose every write targets the record's single captured
originalLocation (children are restored to the root's pre-jail location). -/
theorem unjailProcess_always_deletes_and_restores_to_original
    (env : Env) (state : JailerState) (pid : Nat) (jail : Jail)
    (h : lookupJail state.ActiveJails pid = some jail) :
    (unjailProcess env state pid).1.ActiveJails = removeJail state.ActiveJails pid ∧
    (unjailProcess env state pid).2.1 = .ok () ∧
    (∀ w ∈ (unjailProcess env state pid).2.2,
      w.1 ∈ restorePaths state jail.OriginalCgroup ∧
      (w.2 = pid ∨ w.2 ∈ jail.Children)) ∧
    (processExists env pid = true →
      ∃ w ∈ (unjailProcess env state pid).2.2, w.2 = pid) ∧
    (∀ c ∈ jail.Children, processExists env c = true →
      ∃ w ∈ (unjailProcess env state pid).2.2, w.2 = c) := by
  have hu : unjailProcess env state pid =
      ({ state with ActiveJails := removeJail state.ActiveJails pid }, .ok (),
        (if processExists env pid then
          (restoreProcessCgroup state env pid jail.OriginalCgroup).2 else []) ++
        (jail.Children.map (fun childPid =>
          if processExists env childPid then
            (restoreProcessCgroup state env childPid jail.OriginalCgroup).2
          else [])).flatten) := by
    unfold unjailProcess
    rw [h]
  rw [hu]
  refine ⟨rfl, rfl, ?_, ?_, ?_⟩
  · intro w hw
    rcases List.mem_append.mp hw with hr | hc
    · by_cases hex : processExists env pid
      · rw [if_pos hex] at hr
        exact ⟨(restore_trace_mem state env pid _ w hr).1,
          Or.inl (restore_trace_mem state env pid _ w hr).2⟩
      · rw [if_neg hex] at hr
        exact absurd hr (List.not_mem_nil w)
    · obtain ⟨l, hl, hwl⟩ := List.mem_flatten.mp hc
      obtain ⟨c, hcmem, hceq⟩ := List.mem_map.mp hl
      by_cases hex : processExists env c
      · rw [if_pos hex] at hceq
        subst hceq
        exact ⟨(restore_trace_mem state env c _ w hwl).1,
          Or.inr ((restore_trace_mem state env c _ w hwl).2 ▸ hcmem)⟩
      · rw [if_neg hex] at hceq
        subst hceq
        exact absurd hwl (List.not_mem_nil w)
  · intro hex
    obtain ⟨w, hw, hwq⟩ := restore_trace_has_entry state env pid jail.OriginalCgroup
    refine ⟨w, List.mem_append_left _ ?_, hwq⟩
    rw [if_pos hex]
    exact hw
  · intro c hcmem hex
    obtain ⟨w, hw, hwq⟩ := restore_trace_has_entry state env c jail.OriginalCgroup
    refine ⟨w, List.mem_append_right _ ?_, hwq⟩
    apply List.mem_flatten.mpr
    refine ⟨(restoreProcessCgroup state env c jail.OriginalCgroup).2, ?_, hw⟩
    apply List.mem_map.mpr
    exact ⟨c, hcmem, by rw [if_pos hex]⟩

/-- Witness for C2 at a concrete input. -/
theorem unjailProcess_always_deletes_and_restores_to_original_witness :
    (unjailProcess envAllOk exampleStateV2 1).1.ActiveJails =
      removeJail exampleStateV2.ActiveJails 1 ∧
    (unjailProcess envAllOk exampleStateV2 1).2.1 = .ok () :=
  ⟨(unjailProcess_always_deletes_and_restores_to_original envAllOk exampleStateV2 1
      exampleNetJail (by decide)).1,
   (unjailProcess_always_deletes_and_restores_to_original envAllOk exampleStateV2 1
      exampleNetJail (by decide)).2.1⟩

/-! Add-type and fresh-jail reduction lemmas (C1, C3). -/

/-- Every write attempted by the combined move carries the moved pid and
targets either the combined path of the state or the hard-coded net_cls
combined path. -/
lemma combinedMove_trace_mem (state : JailerState) (env : Env) (pid : Nat)
    (s : String) :
    ∀ w ∈ (moveProcessToCombinedCgroup state env pid s).2,
      w.2 = pid ∧
      (w.1 = joinPath state.NetworkCpuCgroupPath "cgroup.procs" ∨
       w.1 = joinPath (joinPath "/sys/fs/cgroup/net_cls" JailNetworkCpuCgroup)
         "cgroup.procs") := by
  unfold moveProcessToCombinedCgroup
  by_cases hm : env.mkdirOk (joinPath "/sys/fs/cgroup/net_cls" JailNetworkCpuCgroup)
  · rw [if_pos hm]
    unfold writeProcs
    by_cases h1 : env.fsOk (joinPath state.NetworkCpuCgroupPath "cgroup.procs") <;>
      simp [h1]
  · rw [if_neg hm]
    simp

/-- Full unjail always reports success once the record exists. -/
lemma unjailProcess_result_ok (env : Env) (state : JailerState) (pid : Nat)
    (jail : Jail) (h : lookupJail state.ActiveJails pid = some jail) :
    (unjailProcess env state pid).2.1 = .ok () := by
  unfold unjailProcess
  rw [h]

/-- Reduction of `jailProcess` in the add-type case: the registry has been
updated in place before the combined move runs, the trace is exactly the
combined move's trace and the outcome mirrors the combined move's outcome. -/
lemma jailProcess_addtype_reduction (env : Env) (state : JailerState)
    (jailType : String) (pid : Nat) (jail : Jail)
    (ht : jailType = "network" ∨ jailType = "cpu")
    (h : lookupJail state.ActiveJails pid = some jail)
    (hnot : jail.HasJailType jailType = false) :
    (jailProcess env state jailType pid).1 =
      { state with ActiveJails :=
          updateJail state.ActiveJails pid (jail.AddJailType jailType) } ∧
    (jailProcess env state jailType pid).2.2 =
      (moveProcessToCombinedCgroup
        { state with ActiveJails :=
            updateJail state.ActiveJails pid (jail.AddJailType jailType) }
        env pid (jail.AddJailType jailType).GetJailTypesString).2 ∧
    (jailProcess env state jailType pid).2.1.isOk =
      (moveProcessToCombinedCgroup
        { state with ActiveJails :=
            updateJail state.ActiveJails pid (jail.AddJailType jailType) }
        env pid (jail.AddJailType jailType).GetJailTypesString).1.isOk := by
  have hcond : ¬(jailType ≠ "network" ∧ jailType ≠ "cpu") := by
    rcases ht with h1 | h1 <;> simp [h1]
  unfold jailProcess
  rw [if_neg hcond, h]
  simp only [hnot, Bool.false_eq_true, if_false]
  split <;> rename_i heq <;> simp_all

/-- Reduction of `jailProcess` in the fresh-record case, once the root move
succeeded: a new record is appended whose children are the descendants whose
own move succeeded. -/
lemma jailProcess_fresh_reduction (env : Env) (state : JailerState)
    (jailType : String) (pid : Nat) (originalCgroup : String)
    (descendants : List Nat)
    (ht : jailType = "network" ∨ jailType = "cpu")
    (h : lookupJail state.ActiveJails pid = none)
    (hv : validateProcessAccess env pid = .ok ())
    (hc : getProcessCgroup env pid = .ok originalCgroup)
    (hd : getAllDescendants env pid = .ok descendants)
    (hm : (moveForJailType state env jailType pid).1 = .ok ()) :
    jailProcess env state jailType pid =
      ({ state with ActiveJails := state.ActiveJails ++
          [(pid, { PID := pid, OriginalCgroup := originalCgroup,
                   JailTypes := [jailType], Timestamp := env.now,
                   Children := ((descendants.map
                       (fun d => (d, moveForJailType state env jailType d))).filter
                       (fun dm => dm.2.1.isOk)).map Prod.fst })] },
        .ok (),
        (moveForJailType state env jailType pid).2 ++
          ((descendants.map (fun d => (d, moveForJailType state env jailType d))).map
            (fun dm => dm.2.2)).flatten) := by
  have hcond : ¬(jailType ≠ "network" ∧ jailType ≠ "cpu") := by
    rcases ht with h1 | h1 <;> simp [h1]
  unfold jailProcess
  rw [if_neg hcond, h, hv, hc, hd]
  simp only [hm]

/-- Collecting the first components of the successful move attempts is a
filter of the descendant list by move success. -/
lemma map_pair_filter_isOk (f : Nat → Except JailerErr Unit × WriteTrace)
    (l : List Nat) :
    ((l.map (fun d => (d, f d))).filter (fun dm => dm.2.1.isOk)).map Prod.fst =
      l.filter (fun d => (f d).1.isOk) := by
  induction l with
  | nil => rfl
  | cons d ds ih =>
    simp only [List.map_cons, List.filter_cons]
    by_cases hp : (f d).1.isOk <;> simp [hp, ih]

/-- C1 counterexample: a concrete add-type transition in which the record's
only child, pid 2, is alive, the operation succeeds and performs writes, yet
no attempted write carries pid 2 — the claim's "moves every currently-known
live child" is false on the code. -/
theorem jailProcess_addtype_leaves_children_behind :
    (lookupJail exampleStateV2.ActiveJails 1).map Jail.Children = some [2] ∧
    envAllOk.alive 2 = true ∧
    (jailProcess envAllOk exampleStateV2 "cpu" 1).2.1 = .ok () ∧
    (∀ w ∈ (jailProcess envAllOk exampleStateV2 "cpu" 1).2.2, w.2 ≠ 2) ∧
    (jailProcess envAllOk exampleStateV2 "cpu" 1).2.2 ≠ [] :=
  ⟨rfl, rfl, rfl, by decide, by decide⟩

/-- C1 amended: for a process with a record lacking jail type t, jail(p, t)
appends t to the record's restrictionSet, updates the same record in place
(no new record), and moves only the root p toward the combined physical
path(s) — every attempted write carries the root pid; the record's children
and originalLocation are untouched and the children are not moved. -/
theorem jailProcess_addtype_updates_in_place_moves_root_only
    (env : Env) (state : JailerState) (jailType : String) (pid : Nat) (jail : Jail)
    (ht : jailType = "network" ∨ jailType = "cpu")
    (h : lookupJail state.ActiveJails pid = some jail)
    (hnot : jail.HasJailType jailType = false) :
    (jailProcess env state jailType pid).1.ActiveJails =
      updateJail state.ActiveJails pid (jail.AddJailType jailType) ∧
    lookupJail (jailProcess env state jailType pid).1.ActiveJails pid =
      some (jail.AddJailType jailType) ∧
    (jail.AddJailType jailType).JailTypes = jail.JailTypes ++ [jailType] ∧
    (jail.AddJailType jailType).Children = jail.Children ∧
    (jail.AddJailType jailType).OriginalCgroup = jail.OriginalCgroup ∧
    (∀ w ∈ (jailProcess env state jailType pid).2.2,
      w.2 = pid ∧
      (w.1 = joinPath state.NetworkCpuCgroupPath "cgroup.procs" ∨
       w.1 = joinPath (joinPath "/sys/fs/cgroup/net_cls" JailNetworkCpuCgroup)
         "cgroup.procs")) := by
  obtain ⟨h1, h2, _⟩ := jailProcess_addtype_reduction env state jailType pid jail ht h hnot
  refine ⟨by rw [h1], ?_, addJailType_of_not_has jail jailType hnot,
    addJailType_children jail jailType, addJailType_originalCgroup jail jailType, ?_⟩
  · rw [h1]
    exact lookupJail_updateJail state.ActiveJails pid _ jail h
  · intro w hw
    rw [h2] at hw
    exact combinedMove_trace_mem _ env pid
      (jail.AddJailType jailType).GetJailTypesString w hw

/-- Witness for the amended C1 at a concrete input. -/
theorem jailProcess_addtype_updates_in_place_moves_root_only_witness :
    (jailProcess envAllOk exampleStateV2 "cpu" 1).1.ActiveJails =
      updateJail exampleStateV2.ActiveJails 1 (exampleNetJail.AddJailType "cpu") ∧
    lookupJail (jailProcess envAllOk exampleStateV2 "cpu" 1).1.ActiveJails 1 =
      some (exampleNetJail.AddJailType "cpu") :=
  ⟨(jailProcess_addtype_updates_in_place_moves_root_only envAllOk exampleStateV2 "cpu" 1
      exampleNetJail (Or.inr rfl) (by decide) (by decide)).1,
   (jailProcess_addtype_updates_in_place_moves_root_only envAllOk exampleStateV2 "cpu" 1
      exampleNetJail (Or.inr rfl) (by decide) (by decide)).2.1⟩

/-- C3 counterexample: a concrete add-type jail in which the second
sub-hierarchy write of the combined move fails; the enclosing jail operation
returns a failure (not success), while the restrictionSet has nonetheless
already been extended — the record does not reflect only what succeeded. -/
theorem jailProcess_addtype_combined_failure_errors :
    (lookupJail exampleStateV2.ActiveJails 1).map Jail.JailTypes = some ["network"] ∧
    (jailProcess envNetClsWriteFails exampleStateV2 "cpu" 1).2.1.isOk = false ∧
    (lookupJail (jailProcess envNetClsWriteFails exampleStateV2 "cpu" 1).1.ActiveJails 1).map
        Jail.JailTypes = some ["network", "cpu"] :=
  ⟨rfl, rfl, rfl⟩

/-- C3 amended: per-entity failures are downgraded to warnings in the unjail
operations (full unjail always succeeds; selective unjail succeeds whenever
the record holds the type, whatever moves fail) and in the fresh-jail path
(descendant failures only exclude the descendant from the children list); in
the add-type path however the jail operation mirrors the combined move's
outcome — a failed sub-hierarchy write fails the whole operation — and the
restrictionSet keeps the added type either way. -/
theorem perEntity_failures_warn_except_addtype_combined :
    (∀ (env : Env) (state : JailerState) (pid : Nat) (jail : Jail),
      lookupJail state.ActiveJails pid = some jail →
      (unjailProcess env state pid).2.1 = .ok ()) ∧
    (∀ (env : Env) (state : JailerState) (jailType : String) (pid : Nat) (jail : Jail),
      lookupJail state.ActiveJails pid = some jail →
      jail.HasJailType jailType = true →
      (unjailProcessSelective env state jailType pid).2.1 = .ok ()) ∧
    (∀ (env : Env) (state : JailerState) (jailType : String) (pid : Nat) (jail : Jail),
      lookupJail state.ActiveJails pid = some jail →
      jail.HasJailType jailType = false →
      (jailType = "network" ∨ jailType = "cpu") →
      (jailProcess env state jailType pid).2.1.isOk =
        (moveProcessToCombinedCgroup
          { state with ActiveJails :=
              updateJail state.ActiveJails pid (jail.AddJailType jailType) }
          env pid (jail.AddJailType jailType).GetJailTypesString).1.isOk ∧
      lookupJail (jailProcess env state jailType pid).1.ActiveJails pid =
        some (jail.AddJailType jailType)) ∧
    (∀ (env : Env) (state : JailerState) (jailType : String) (pid : Nat)
        (originalCgroup : String) (descendants : List Nat),
      lookupJail state.ActiveJails pid = none →
      validateProcessAccess env pid = .ok () →
      getProcessCgroup env pid = .ok originalCgroup →
      getAllDescendants env pid = .ok descendants →
      (moveForJailType state env jailType pid).1 = .ok () →
      (jailType = "network" ∨ jailType = "cpu") →
      (jailProcess env state jailType pid).2.1 = .ok () ∧
      lookupJail (jailProcess env state jailType pid).1.ActiveJails pid =
        some { PID := pid, OriginalCgroup := originalCgroup,
               JailTypes := [jailType], Timestamp := env.now,
               Children := descendants.filter
                 (fun d => (moveForJailType state env jailType d).1.isOk) }) := by
  refine ⟨?_, ?_, ?_, ?_⟩
  · intro env state pid jail h
    exact unjailProcess_result_ok env state pid jail h
  · intro env state jailType pid jail h hhas
    unfold unjailProcessSelective
    rw [h]
    simp only [hhas, Bool.not_true, Bool.false_eq_true, if_false]
    by_cases hlen : jail.JailTypes.length = 1
    · rw [if_pos hlen]
      exact unjailProcess_result_ok env state pid jail h
    · rw [if_neg hlen]
      split
      · split
        · rfl
        · split <;> rfl
      · rfl
  · intro env state jailType pid jail h hnot ht
    obtain ⟨h1, _, h3⟩ := jailProcess_addtype_reduction env state jailType pid jail ht h hnot
    refine ⟨h3, ?_⟩
    rw [h1]
    exact lookupJail_updateJail state.ActiveJails pid _ jail h
  · intro env state jailType pid originalCgroup descendants h hv hc hd hm ht
    have hred := jailProcess_fresh_reduction env state jailType pid originalCgroup
      descendants ht h hv hc hd hm
    rw [hred]
    refine ⟨rfl, ?_⟩
    rw [map_pair_filter_isOk]
    exact lookupJail_append_single state.ActiveJails pid _ h

/-- Witness for the amended C3 at concrete inputs, one per conjunct. -/
theorem perEntity_failures_warn_except_addtype_combined_witness :
    (unjailProcess envNetClsWriteFails exampleStateV2 1).2.1 = .ok () ∧
    (unjailProcessSelective envAllOk exampleStateV1 "cpu" 1).2.1 = .ok () ∧
    (jailProcess envNetClsWriteFails exampleStateV2 "cpu" 1).2.1.isOk =
      (moveProcessToCombinedCgroup
        { exampleStateV2 with
          ActiveJails := updateJail exampleStateV2.ActiveJails 1
            (exampleNetJail.AddJailType "cpu") }
        envNetClsWriteFails 1 (exampleNetJail.AddJailType "cpu").GetJailTypesString).1.isOk ∧
    (jailProcess envAllOk (setupCgroupPaths 2 emptyJailerState) "network" 5).2.1 = .ok () :=
  ⟨(perEntity_failures_warn_except_addtype_combined.1 envNetClsWriteFails exampleStateV2 1
      exampleNetJail (by decide)),
   (perEntity_failures_warn_except_addtype_combined.2.1 envAllOk exampleStateV1 "cpu" 1
      exampleNetCpuJail (by decide) (by decide)),
   (perEntity_failures_warn_except_addtype_combined.2.2.1 envNetClsWriteFails exampleStateV2
      "cpu" 1 exampleNetJail (by decide) (by decide) (Or.inr rfl)).1,
   (perEntity_failures_warn_except_addtype_combined.2.2.2 envAllOk
      (setupCgroupPaths 2 emptyJailerState) "network" 5 "/orig" [] rfl rfl rfl rfl
      rfl (Or.inl rfl)).1⟩

/-! Descendant-walk termination lemmas (C8). -/

/-- Children discovered in the table are pids of the table. -/
lemma getProcessChildren_subset_universe (table : List (Nat × Nat)) (p : Nat) :
    ∀ c ∈ getProcessChildren table p, c ∈ pidUniverse table := by
  intro c hc
  simp only [getProcessChildren, List.mem_map, List.mem_filter] at hc
  obtain ⟨e, ⟨he, _⟩, rfl⟩ := hc
  simp only [pidUniverse, List.mem_toFinset, List.mem_map]
  exact ⟨e, he, rfl⟩

/-- Unfolding of the walk at exhausted fuel. -/
lemma findDescendantsAux_zero (table : List (Nat × Nat)) (p : Nat)
    (st : Finset Nat × List Nat) : findDescendantsAux table 0 p st = st := rfl

/-- Unfolding of the walk at positive fuel: an already-visited pid is never
re-expanded, a fresh pid is marked visited and its children walked. -/
lemma findDescendantsAux_succ (table : List (Nat × Nat)) (fuel : Nat) (p : Nat)
    (st : Finset Nat × List Nat) :
    findDescendantsAux table (fuel + 1) p st =
      if p ∈ st.1 then st
      else descendantsLoop (findDescendantsAux table fuel)
        (getProcessChildren table p) (insert p st.1, st.2) := rfl

/-- The loop only ever grows the visited set, provided the step does. -/
lemma descendantsLoop_visited_mono
    (step : Nat → Finset Nat × List Nat → Finset Nat × List Nat)
    (hstep : ∀ (c : Nat) (st : Finset Nat × List Nat), st.1 ⊆ (step c st).1) :
    ∀ (cs : List Nat) (st : Finset Nat × List Nat),
      st.1 ⊆ (descendantsLoop step cs st).1 := by
  intro cs
  induction cs with
  | nil => intro st; exact Finset.Subset.refl _
  | cons c rest ih =>
    intro st
    exact (hstep c (st.1, st.2 ++ [c])).trans (ih _)

/-- The walk only ever grows the visited set. -/
lemma findDescendantsAux_visited_mono (table : List (Nat × Nat)) :
    ∀ (fuel : Nat) (p : Nat) (st : Finset Nat × List Nat),
      st.1 ⊆ (findDescendantsAux table fuel p st).1 := by
  intro fuel
  induction fuel with
  | zero => intro p st; exact Finset.Subset.refl _
  | succ fuel ih =>
    intro p st
    rw [findDescendantsAux_succ]
    by_cases hp : p ∈ st.1
    · rw [if_pos hp]
    · rw [if_neg hp]
      exact (Finset.subset_insert p st.1).trans
        (descendantsLoop_visited_mono (findDescendantsAux table fuel)
          (fun c st' => ih c st') (getProcessChildren table p) (insert p st.1, st.2))

/-- Counting lemma: marking a fresh pid visited shrinks the unvisited part of
the universe extended with that pid by exactly one. -/
lemma sdiff_insert_card_lt (univ visited : Finset Nat) (p : Nat)
    (hp : p ∉ visited) :
    (univ \ insert p visited).card + 1 = (insert p univ \ visited).card := by
  have h1 : insert p univ \ visited = insert p (univ \ insert p visited) := by
    ext x
    simp only [Finset.mem_sdiff, Finset.mem_insert, not_or]
    constructor
    · rintro ⟨hx | hx, hv⟩
      · left; exact hx
      · by_cases hxp : x = p
        · left; exact hxp
        · right; exact ⟨hx, hxp, hv⟩
    · rintro (rfl | ⟨hx, hxp, hv⟩)
      · exact ⟨Or.inl rfl, hp⟩
      · exact ⟨Or.inr hx, hv⟩
  rw [h1, Finset.card_insert_of_not_mem (by simp)]

/-- One extra unit of fuel is invisible once the fuel exceeds the number of
not-yet-visited pids the walk can still expand. -/
lemma findDescendantsAux_stable_step (table : List (Nat × Nat)) :
    ∀ (fuel : Nat) (p : Nat) (st : Finset Nat × List Nat),
      (insert p (pidUniverse table) \ st.1).card < fuel →
      findDescendantsAux table (fuel + 1) p st = findDescendantsAux table fuel p st := by
  intro fuel
  induction fuel with
  | zero => intro p st h; exact absurd h (Nat.not_lt_zero _)
  | succ fuel ih =>
    intro p st h
    rw [findDescendantsAux_succ, findDescendantsAux_succ]
    by_cases hp : p ∈ st.1
    · rw [if_pos hp, if_pos hp]
    · rw [if_neg hp, if_neg hp]
      have hbudget : (pidUniverse table \ insert p st.1).card < fuel := by
        have := sdiff_insert_card_lt (pidUniverse table) st.1 p hp
        omega
      have hloop : ∀ (cs : List Nat), (∀ c ∈ cs, c ∈ pidUniverse table) →
          ∀ (st0 : Finset Nat × List Nat),
            (pidUniverse table \ st0.1).card < fuel →
            descendantsLoop (findDescendantsAux table (fuel + 1)) cs st0 =
              descendantsLoop (findDescendantsAux table fuel) cs st0 := by
        intro cs
        induction cs with
        | nil => intro _ st0 _; rfl
        | cons c rest ihc =>
          intro hcs st0 hb
          have hc : c ∈ pidUniverse table := hcs c (List.mem_cons_self c rest)
          have hstep : findDescendantsAux table (fuel + 1) c (st0.1, st0.2 ++ [c]) =
              findDescendantsAux table fuel c (st0.1, st0.2 ++ [c]) := by
            apply ih
            rw [Finset.insert_eq_self.mpr hc]
            exact hb
          show descendantsLoop (findDescendantsAux table (fuel + 1)) rest
              (findDescendantsAux table (fuel + 1) c (st0.1, st0.2 ++ [c])) =
            descendantsLoop (findDescendantsAux table fuel) rest
              (findDescendantsAux table fuel c (st0.1, st0.2 ++ [c]))
          rw [hstep]
          apply ihc (fun c' hc' => hcs c' (List.mem_cons_of_mem _ hc'))
          have hmono := findDescendantsAux_visited_mono table fuel c (st0.1, st0.2 ++ [c])
          have hsub : pidUniverse table \
              (findDescendantsAux table fuel c (st0.1, st0.2 ++ [c])).1 ⊆
              pidUniverse table \ st0.1 :=
            Finset.sdiff_subset_sdiff (Finset.Subset.refl _) hmono
          exact lt_of_le_of_lt (Finset.card_le_card hsub) hb
      exact hloop (getProcessChildren table p)
        (getProcessChildren_subset_universe table p) _ hbudget

/-- Beyond the sufficient bound, every fuel value computes the same answer:
the recursion has reached its fixpoint. -/
lemma findDescendantsAux_stable_ge (table : List (Nat × Nat)) :
    ∀ (fuel₂ fuel₁ : Nat) (p : Nat) (st : Finset Nat × List Nat),
      (insert p (pidUniverse table) \ st.1).card < fuel₁ → fuel₁ ≤ fuel₂ →
      findDescendantsAux table fuel₂ p st = findDescendantsAux table fuel₁ p st := by
  intro fuel₂
  induction fuel₂ with
  | zero =>
    intro fuel₁ p st _ hle
    have : fuel₁ = 0 := by omega
    rw [this]
  | succ f ih =>
    intro fuel₁ p st h hle
    rcases Nat.lt_or_ge fuel₁ (f + 1) with hlt | hge
    · have hle' : fuel₁ ≤ f := by omega
      have hcard : (insert p (pidUniverse table) \ st.1).card < f := by omega
      rw [findDescendantsAux_stable_step table f p st hcard]
      exact ih fuel₁ p st h hle'
    · have heq : fuel₁ = f + 1 := by omega
      rw [heq]

/-- C8: the descendant walk terminates on every process table, cyclic or
inconsistent ones included — with the canonical fuel (one more than the
number of distinct pids in play) the computation has reached its fixpoint and
any larger fuel returns the identical answer; a pid already in the visited
set is never re-expanded (the call returns its state unchanged at any fuel);
and `getAllDescendants` errors exactly when the process table itself is
unreadable, never because of a vanished individual process (such a process is
merely an absent table row). -/
theorem getAllDescendants_terminates_and_errors_only_unreadable :
    (∀ (table : List (Nat × Nat)) (pid : Nat) (fuel : Nat),
      descendantsFuel table pid ≤ fuel →
      findDescendantsAux table fuel pid (∅, []) =
        findDescendantsAux table (descendantsFuel table pid) pid (∅, [])) ∧
    (∀ (table : List (Nat × Nat)) (fuel : Nat) (p : Nat)
        (st : Finset Nat × List Nat),
      p ∈ st.1 → findDescendantsAux table fuel p st = st) ∧
    (∀ (env : Env) (pid : Nat),
      (env.table = none → (getAllDescendants env pid).isOk = false) ∧
      (∀ table, env.table = some table → (getAllDescendants env pid).isOk = true)) := by
  refine ⟨?_, ?_, ?_⟩
  · intro table pid fuel hf
    apply findDescendantsAux_stable_ge
    · show (insert pid (pidUniverse table) \ (∅ : Finset Nat)).card < descendantsFuel table pid
      rw [Finset.sdiff_empty]
      simp [descendantsFuel]
    · exact hf
  · intro table fuel p st hp
    cases fuel with
    | zero => rfl
    | succ f => rw [findDescendantsAux_succ, if_pos hp]
  · intro env pid
    constructor
    · intro h
      simp only [getAllDescendants, h]
      rfl
    · intro table h
      simp only [getAllDescendants, h]
      rfl

/-- Witness for C8 at concrete inputs, including a cyclic parent/child table
(1 and 2 are each other's parent). -/
theorem getAllDescendants_terminates_and_errors_only_unreadable_witness :
    findDescendantsAux [(2, 1), (1, 2)] 10 1 (∅, []) =
      findDescendantsAux [(2, 1), (1, 2)] (descendantsFuel [(2, 1), (1, 2)] 1) 1 (∅, []) ∧
    findDescendantsAux [(2, 1), (1, 2)] 5 1 ({1}, [7]) = ({1}, [7]) ∧
    (getAllDescendants { envAllOk with table := none } 1).isOk = false ∧
    (getAllDescendants { envAllOk with table := some [(2, 1), (1, 2)] } 1).isOk = true :=
  ⟨getAllDescendants_terminates_and_errors_only_unreadable.1 [(2, 1), (1, 2)] 1 10 (by decide),
   getAllDescendants_terminates_and_errors_only_unreadable.2.1 [(2, 1), (1, 2)] 5 1
     ({1}, [7]) (by decide),
   (getAllDescendants_terminates_and_errors_only_unreadable.2.2
     { envAllOk with table := none } 1).1 rfl,
   (getAllDescendants_terminates_and_errors_only_unreadable.2.2
     { envAllOk with table := some [(2, 1), (1, 2)] } 1).2 [(2, 1), (1, 2)] rfl⟩
